import Mathlib

/-!
Verification of the frame composition and animation engine of `web_dmx.py`
(a DMX lighting web controller).

The Python source is shallowly embedded: every definition below is a direct
translation of the corresponding Python function, with the process-wide
mutable state (base frame, current frame, dimmer level) passed explicitly.

Numeric modelling notes, used consistently below:
* Python integers are `Int`; channel buffers are `List Int`.
* Python list assignment `buf[ch] = v` guarded by `0 <= ch < len(buf)` is
  `List.set`, which is a no-op out of range; indices are `Nat` and the
  theorems assume the data-model invariant `1 ≤ start_channel`, under which
  no negative Python index can arise.
* Python `x // y` on non-negative ints is `Nat` division; `int(...)` applied
  to the non-negative floats occurring here truncates, i.e. takes the floor,
  and Lean `Int` division `/` is floor division for a positive divisor.
* Python `round` is round-half-to-even.  The code computes
  `int(round(v * (pct/100.0)))` through binary floats; we model it as exact
  round-half-to-even of the rational `v*pct/100` (`pyRound`).  On the byte
  domain the two agree except on a handful of exact ties where float noise
  tips the result to the other nearest integer, so theorems additionally
  state the nearest-integer bound `|100*result − v*pct| ≤ 50`, which holds
  of both, and concrete instances are evaluated only at percentages such as
  0/25/50/75/100 where the float computation is exact.
* Likewise `int(a + (b - a) * (i/steps))` is modelled as
  `a + ((b - a) * i) / steps` (exact floor); the float computation can land
  one below an exact integer boundary, so the per-channel theorem states the
  inclusive bound `|steps*(value − a) − (b − a)*i| ≤ steps` satisfied by
  both, while the final step `i = steps` is exact in both (the float factor
  is exactly `1.0` there).
-/

namespace WebDmx

/-- ASCII uppercase of a string, modelling Python `str.upper()` on the role
and mode tokens of this program (all ASCII).  Defined over the character
list so that the kernel can evaluate it. -/
def upStr (s : String) : String := String.mk (s.data.map Char.toUpper)

/-- Role token for a dimmer channel. -/
def dimTok : String := "DIM"

/-- Role token for the red channel. -/
def rTok : String := "R"

/-- Role token for the green channel. -/
def gTok : String := "G"

/-- Role token for the blue channel. -/
def bTok : String := "B"

/-- Role token for the white channel. -/
def wTok : String := "W"

/-- Role token for a strobe channel. -/
def strobeTok : String := "STROBE"

/-- Mode token RGBW (`str(f.get("mode","RGBW")).upper() == "RGBW"`). -/
def rgbwTok : String := "RGBW"

/-- A fixture as stored in `scenes.json`: 1-based `start_channel`, a `mode`
string (absent mode is the default `"RGBW"`), and an optional role map
(`None` or `[]` are both falsy in Python; we use `[]` for "absent"). -/
structure Fixture where
  start_channel : Nat
  mode : String
  map : List String
deriving Repr, DecidableEq

/-- Normalised role map: `m = [x.upper() for x in (f.get("map") or [])]`
(the source also filters out non-string entries, which the typed embedding
excludes by construction). -/
def normMap (f : Fixture) : List String := f.map.map upStr

/-- Translation of `_fixture_span`: length of the map when the raw map is
truthy (non-empty), otherwise 4 for mode RGBW and 3 for anything else. -/
def fixtureSpan (f : Fixture) : Nat :=
  if f.map ≠ [] then f.map.length
  else if upStr f.mode = rgbwTok then 4 else 3

/-- Exact round-half-to-even of the rational `num/den` for `den > 0`,
modelling Python 3 `round` (see the numeric notes in the file header). -/
def pyRound (num den : Int) : Int :=
  let q := num / den
  let r := num % den
  if 2 * r < den then q
  else if den < 2 * r then q + 1
  else if q % 2 = 0 then q else q + 1

/-- Translation of `int(round(v * factor))` with `factor = pct/100.0`. -/
def dimScale (v : Int) (pct : Nat) : Int := pyRound (v * (pct : Int)) 100

/-- Translation of the per-fixture body of `_apply_global_dimmer`: if the
normalised map contains `DIM`, that channel is set to
`int(round(255 * factor))` (bounds-checked); otherwise the first four
(`span >= 4`) or three offsets of the fixture are each scaled in place,
every write bounds-checked against the buffer length. -/
def applyDimFixture (pct : Nat) (out : List Int) (f : Fixture) : List Int :=
  let start := f.start_channel - 1
  let m := normMap f
  if dimTok ∈ m then
    out.set (start + m.indexOf dimTok) (dimScale 255 pct)
  else
    let offs : List Nat := if 4 ≤ fixtureSpan f then [0, 1, 2, 3] else [0, 1, 2]
    offs.foldl (fun o off =>
      o.set (start + off) (dimScale (o.getD (start + off) 0) pct)) out

/-- Translation of `_apply_global_dimmer` with the global dimmer percentage
passed explicitly (the source reads it from the locked global). -/
def applyGlobalDimmer (pct : Nat) (frame : List Int) (fixtures : List Fixture) : List Int :=
  if pct = 100 then frame
  else fixtures.foldl (applyDimFixture pct) frame

/-- A color payload; `color.get("r", 0)` etc., so absent keys are 0. -/
structure Color where
  r : Int
  g : Int
  b : Int
  w : Int
deriving Repr, DecidableEq

/-- Per-call attributes; `attrs.get("dimmer", dim_def)` means an absent key
falls back to the root default, hence `Option`. -/
structure Attrs where
  dimmer : Option Int
  strobe : Option Int
deriving Repr, DecidableEq

/-- Root defaults `{"dimmer": ..., "strobe": ...}`. -/
structure RootDefaults where
  dimmer : Int
  strobe : Int
deriving Repr, DecidableEq

/-- Clamp to a byte, `max(0, min(255, v))`. -/
def clamp255 (v : Int) : Int := max 0 (min 255 v)

/-- Translation of `_apply_fixture`.  Without a map, raw `r,g,b` (and `w`
only for mode RGBW) are written positionally, unclamped, each write guarded
by `start+k < len(buf)`.  With a map, the loop writes the clamped value for
each known role at `start + idx` and ignores unknown roles; the source
`break`s at the first out-of-range channel, which is equivalent here since
channels increase with the index and out-of-range `List.set` is a no-op. -/
def applyFixture (buf : List Int) (f : Fixture) (color : Color) (attrs : Attrs)
    (rd : RootDefaults) : List Int :=
  let start := f.start_channel - 1
  let m := normMap f
  let dim := attrs.dimmer.getD rd.dimmer
  let stro := attrs.strobe.getD rd.strobe
  if m = [] then
    let b1 := buf.set start color.r
    let b2 := b1.set (start + 1) color.g
    let b3 := b2.set (start + 2) color.b
    if upStr f.mode = rgbwTok then b3.set (start + 3) color.w else b3
  else
    m.enum.foldl (fun b p =>
      let ch := start + p.1
      if p.2 = dimTok then b.set ch (clamp255 dim)
      else if p.2 = rTok then b.set ch (clamp255 color.r)
      else if p.2 = gTok then b.set ch (clamp255 color.g)
      else if p.2 = bTok then b.set ch (clamp255 color.b)
      else if p.2 = wTok then b.set ch (clamp255 color.w)
      else if p.2 = strobeTok then b.set ch (clamp255 stro)
      else b) buf

/-- Step count used by `run_sequence` for a crossfade of `xf` ms:
`max(2, min(120, xf // 30))`. -/
def run_sequence_steps (xf : Nat) : Nat := max 2 (min 120 (xf / 30))

/-- Step count used by `trigger` (and `api_test_scene`) for a fade of
`fade_ms` ms: `max(2, min(60, fade_ms // 30))`. -/
def trigger_steps (fade_ms : Nat) : Nat := max 2 (min 60 (fade_ms / 30))

/-- One interpolated channel, `int(a + (b - a) * t)` with `t = i/steps`,
modelled as the exact floor `a + ((b - a) * i) / steps` (see header notes:
on byte-range channels the Python value is non-negative, so `int` truncation
is the floor). -/
def mixChannel (a b : Int) (i steps : Nat) : Int :=
  a + (b - a) * (i : Int) / (steps : Int)

/-- One interpolated frame,
`[int(a + (b - a) * t) for a, b in zip(start, nxt_f)]`. -/
def mixFrame (start target : List Int) (i steps : Nat) : List Int :=
  (start.zip target).map (fun p => mixChannel p.1 p.2 i steps)

/-- The full interpolation loop `for i in range(1, steps + 1)` of
`run_sequence` / `trigger` / `api_test_scene`: the emitted frames, in
order. -/
def interpolate (start target : List Int) (steps : Nat) : List (List Int) :=
  (List.range steps).map (fun k => mixFrame start target (k + 1) steps)

/-- Translation of `ensure_len`: `None` becomes all zeros, a short buffer is
zero-padded, a long one truncated. -/
def ensure_len (buf : Option (List Int)) (n : Nat) : List Int :=
  match buf with
  | none => List.replicate n 0
  | some b =>
    if b.length < n then b ++ List.replicate (n - b.length) 0
    else if n < b.length then b.take n
    else b

/-- Translation of `get_base_frame`, with the stored global
`CURRENT_BASE_FRAME` passed explicitly. -/
def get_base_frame (stored : Option (List Int)) (target_len : Nat) : List Int :=
  ensure_len stored target_len

/-- Translation of `get_current_frame`, with the stored global
`CURRENT_FRAME` passed explicitly. -/
def get_current_frame (stored : Option (List Int)) (target_len : Nat) : List Int :=
  ensure_len stored target_len

/-- The fade paths of `trigger` / `api_test_scene` fetch
`start = get_base_frame(len(target))` and then interpolate, so the start is
resized to the target's length before any mixing. -/
def interpolateFromBase (base : Option (List Int)) (target : List Int)
    (steps : Nat) : List (List Int) :=
  interpolate (ensure_len base target.length) target steps

/-- The process-wide frame state written by the Transmission Gate. -/
structure GateState where
  baseFrame : Option (List Int)
  currentFrame : Option (List Int)
deriving Repr, DecidableEq

/-- Outcome reported by the OLA sink for one `SendDmx` call.  The source
passes `lambda status: wrapper.Stop()` as the completion callback, so the
status — success or failure — is received and discarded. -/
inductive SinkStatus where
  | ok : SinkStatus
  | failed : SinkStatus
deriving Repr, DecidableEq

/-- Record of the single sink invocation performed by `send_dmx`: the
universe, the (dimmed) buffer handed over, and the frame state at the moment
of the call. -/
structure SinkCall where
  universeId : Nat
  buffer : List Int
  stateAtCall : GateState
deriving Repr, DecidableEq

/-- Translation of `send_dmx`.  Steps, in source order: store the base
frame; compute the dimmed copy, falling back to the raw buffer if loading
the configuration fails (`cfgOk = false` models the `except` arm); invoke
the sink (whose status the callback discards — `status` does not influence
anything); store the sent frame.  The function is total: no code path
raises, whatever the sink reports. -/
def send_dmx (pct : Nat) (fixtures : List Fixture) (cfgOk : Bool)
    (universeId : Nat) (dmx : List Int) (status : SinkStatus)
    (s : GateState) : GateState × SinkCall :=
  let s1 : GateState := { s with baseFrame := some dmx }
  let toSend := if cfgOk then applyGlobalDimmer pct dmx fixtures else dmx
  let call : SinkCall := { universeId := universeId, buffer := toSend, stateAtCall := s1 }
  match status with
  | SinkStatus.ok => ({ s1 with currentFrame := some toSend }, call)
  | SinkStatus.failed => ({ s1 with currentFrame := some toSend }, call)

/-- Reading an index just overwritten (in range) yields the new value. -/
theorem getD_set_self (l : List Int) (i : Nat) (v : Int) (h : i < l.length) :
    (l.set i v).getD i 0 = v := by
  induction l generalizing i with
  | nil => simp at h
  | cons a t ih =>
    cases i with
    | zero => simp
    | succ n => simpa using ih n (by simpa using h)

/-- Reading any other index is unaffected by a write. -/
theorem getD_set_ne (l : List Int) (i j : Nat) (v : Int) (h : i ≠ j) :
    (l.set i v).getD j 0 = l.getD j 0 := by
  induction l generalizing i j with
  | nil => simp
  | cons a t ih =>
    cases i with
    | zero => cases j with
      | zero => exact absurd rfl h
      | succ m => simp
    | succ n => cases j with
      | zero => simp
      | succ m => simpa using ih n m (by omega)

/-- Indexing a channel-wise combination of two buffers. -/
theorem getD_zip_map (g : Int → Int → Int) (s t : List Int) (c : Nat)
    (hs : c < s.length) (ht : c < t.length) :
    ((s.zip t).map (fun p => g p.1 p.2)).getD c 0 = g (s.getD c 0) (t.getD c 0) := by
  induction s generalizing t c with
  | nil => simp at hs
  | cons a s ih =>
    cases t with
    | nil => simp at ht
    | cons b t =>
      cases c with
      | zero => simp
      | succ m =>
        simpa using ih t m (by simpa using hs) (by simpa using ht)

/-- The resized buffer always has exactly the requested length. -/
theorem ensure_len_length (buf : Option (List Int)) (n : Nat) :
    (ensure_len buf n).length = n := by
  cases buf with
  | none => simp [ensure_len]
  | some b =>
    by_cases h1 : b.length < n
    · simp [ensure_len, h1]; omega
    · by_cases h2 : n < b.length
      · simp [ensure_len, h1, h2]; omega
      · simp [ensure_len, h1, h2]; omega

/-- C1: for every universe id and base buffer, `send_dmx` returns the same
result whatever status the DMX sink reports — a sink failure cannot raise
out of `send_dmx` or change any stored state — and in every case the base
frame has already been set to the given buffer at the moment the sink is
invoked (and remains so afterwards). -/
theorem send_dmx_commits_base_and_ignores_sink_status (pct : Nat)
    (fixtures : List Fixture) (cfgOk : Bool) (u : Nat) (dmx : List Int)
    (s : GateState) :
    (∀ st1 st2 : SinkStatus,
      send_dmx pct fixtures cfgOk u dmx st1 s = send_dmx pct fixtures cfgOk u dmx st2 s) ∧
    (∀ st : SinkStatus,
      (send_dmx pct fixtures cfgOk u dmx st s).2.stateAtCall.baseFrame = some dmx) ∧
    (∀ st : SinkStatus,
      (send_dmx pct fixtures cfgOk u dmx st s).1.baseFrame = some dmx) := by
  refine ⟨fun st1 st2 => ?_, fun st => ?_, fun st => ?_⟩
  · cases st1 <;> cases st2 <;> rfl
  · cases st <;> rfl
  · cases st <;> rfl

/-- C9: applying the Global Dimmer at level 100% is the identity on any
buffer, for any fixture configuration. -/
theorem applyGlobalDimmer_100_identity (frame : List Int) (fixtures : List Fixture) :
    applyGlobalDimmer 100 frame fixtures = frame := by
  simp [applyGlobalDimmer]

/-- C10: before any frame has ever been sent (stored state `None`), reading
the base frame or the current frame at any requested length returns an
all-zero buffer of that length. -/
theorem first_frame_reads_are_black (n : Nat) :
    get_base_frame none n = List.replicate n 0 ∧
    get_current_frame none n = List.replicate n 0 ∧
    (get_base_frame none n).length = n := by
  refine ⟨rfl, rfl, ?_⟩
  simp [get_base_frame, ensure_len]

/-- C2 counterexample: a fixture whose map contains an `A` (Amber) role but
no `DIM` role is NOT given the absolute override `round(255*pct/100) = 128`
at 50%; its channel is scaled from its prior value 100 to 50 instead. -/
theorem amber_is_scaled_not_overridden :
    applyGlobalDimmer 50 [100] [⟨1, "RGBW", ["A"]⟩] = [50] ∧ (50 : Int) ≠ 128 := by
  constructor
  · rfl
  · decide

/-- C3 counterexample: the code computes `max(2, min(cap, x // 30))` with
cap 120 (sequence crossfades) or 60 (trigger fades), not the documented
five-band scheme: the count for 1000 ms is 33, not 25; the count for 120 ms
is 4, below the documented band minimum 5 for 100–500 ms; and a 10000 ms
trigger fade yields 60, below the documented band minimum 80. -/
theorem steps_do_not_follow_banded_scheme :
    run_sequence_steps 1000 = 33 ∧ trigger_steps 1000 = 33 ∧ (33 : Nat) ≠ 25 ∧
    run_sequence_steps 120 = 4 ∧ ¬(5 ≤ run_sequence_steps 120) ∧
    trigger_steps 10000 = 60 ∧ ¬(80 ≤ trigger_steps 10000) := by
  decide

/-- C4 counterexample: the mapless positional fallback of `_apply_fixture`
writes the raw color value unclamped — red 300 is written as 300, outside
the byte range. -/
theorem mapless_fallback_writes_unclamped :
    applyFixture [0, 0, 0] ⟨1, "RGB", []⟩ ⟨300, 0, 0, 0⟩ ⟨none, none⟩ ⟨255, 0⟩
      = [300, 0, 0] ∧ ¬((300 : Int) ≤ 255) := by
  constructor
  · rfl
  · decide

/-- C5 counterexample: a mapless fixture with mode `RGBWA` gets span 3, not
the documented 5 — `_fixture_span` only distinguishes `RGBW` (4) from
everything else (3). -/
theorem rgbwa_span_is_three :
    fixtureSpan ⟨1, "RGBWA", []⟩ = 3 ∧ (3 : Nat) ≠ 5 := by
  constructor
  · rfl
  · decide

/-- C6 counterexample: scaling is Python `round` (half-to-even), not
half-up: channel value 1 at 50% becomes `round(0.5) = 0`, where half-up
rounding would give 1. -/
theorem dimmer_scaling_is_not_half_up :
    applyGlobalDimmer 50 [1] [⟨1, "RGB", []⟩] = [0] ∧ (0 : Int) ≠ 1 := by
  constructor
  · rfl
  · decide

/-- C8 counterexample: when the stored base frame is longer than the
target, it is truncated (not zero-padded to the longer length): from base
`[10, 20]` to target `[5]` every intermediate buffer has length 1, not the
length 2 of the longer input. -/
theorem interpolation_truncates_to_target_length :
    ((interpolateFromBase (some [10, 20]) [5] 2).getD 0 []).length = 1 ∧
    (1 : Nat) ≠ 2 := by
  constructor
  · rfl
  · decide

/-- Rounding to nearest: `pyRound` never strays more than half a unit (50
hundredths) from the exact product.  This bound also holds of the CPython
float computation, including the rare ties that float noise tips the other
way. -/
theorem pyRound_nearest (num : Int) :
    100 * pyRound num 100 - num ≤ 50 ∧ -50 ≤ 100 * pyRound num 100 - num := by
  have h1 : 100 * (num / 100) + num % 100 = num := Int.ediv_add_emod num 100
  have h2 : 0 ≤ num % 100 := Int.emod_nonneg num (by norm_num)
  have h3 : num % 100 < 100 := Int.emod_lt_of_pos num (by norm_num)
  simp only [pyRound]
  split_ifs <;> omega

/-- C3 (amended): the step count is a single clamped formula, not a banded
one — `max(2, min(120, x / 30))` for sequence crossfades and
`max(2, min(60, x / 30))` for trigger/test fades.  Both are non-decreasing
in the duration, sequence counts always lie in [2, 120] and trigger counts
in [2, 60], and the count for 1000 ms is 33 on both paths. -/
theorem steps_clamped_formula (x y : Nat) :
    (x ≤ y → run_sequence_steps x ≤ run_sequence_steps y) ∧
    (x ≤ y → trigger_steps x ≤ trigger_steps y) ∧
    (2 ≤ run_sequence_steps x ∧ run_sequence_steps x ≤ 120) ∧
    (2 ≤ trigger_steps x ∧ trigger_steps x ≤ 60) ∧
    run_sequence_steps 1000 = 33 ∧ trigger_steps 1000 = 33 := by
  unfold run_sequence_steps trigger_steps
  refine ⟨fun h => ?_, fun h => ?_, ⟨?_, ?_⟩, ⟨?_, ?_⟩, by decide, by decide⟩ <;>
    first
      | (have h30 : x / 30 ≤ y / 30 := Nat.div_le_div_right h; omega)
      | omega

/-- Witness for the C3 amended theorem at x = 100, y = 200. -/
theorem steps_clamped_formula_witness :
    100 ≤ 200 ∧ run_sequence_steps 100 ≤ run_sequence_steps 200 :=
  ⟨by decide, (steps_clamped_formula 100 200).1 (by decide)⟩

/-- C5 (amended): a fixture with a non-empty explicit map has span
`len(map)`; a mapless fixture has span 4 exactly when its upper-cased mode
is `RGBW` and span 3 for every other mode — in particular mode `RGBWA`
falls back to 3, not 5. -/
theorem fixtureSpan_cases (f : Fixture) :
    (f.map ≠ [] → fixtureSpan f = f.map.length) ∧
    (f.map = [] → upStr f.mode = rgbwTok → fixtureSpan f = 4) ∧
    (f.map = [] → upStr f.mode ≠ rgbwTok → fixtureSpan f = 3) ∧
    fixtureSpan ⟨1, "RGBWA", []⟩ = 3 := by
  refine ⟨fun h => ?_, fun h hm => ?_, fun h hm => ?_, rfl⟩
  · simp [fixtureSpan, h]
  · simp [fixtureSpan, h, hm]
  · simp [fixtureSpan, h, hm]

/-- Witness for the C5 amended theorem on a mapless RGB fixture. -/
theorem fixtureSpan_cases_witness :
    (Fixture.map ⟨2, "RGB", []⟩ = [] ∧ upStr (Fixture.mode ⟨2, "RGB", []⟩) ≠ rgbwTok) ∧
    fixtureSpan ⟨2, "RGB", []⟩ = 3 :=
  ⟨⟨rfl, by decide⟩, (fixtureSpan_cases ⟨2, "RGB", []⟩).2.2.1 rfl (by decide)⟩

/-- Channels not named by any offset of the scaling loop are untouched. -/
theorem scale_foldl_untouched (pct st : Nat) :
    ∀ (offs : List Nat) (frame : List Int) (c : Nat), (∀ off ∈ offs, st + off ≠ c) →
      (offs.foldl (fun o off => o.set (st + off) (dimScale (o.getD (st + off) 0) pct))
        frame).getD c 0 = frame.getD c 0 := by
  intro offs
  induction offs with
  | nil => intro frame c _; rfl
  | cons o rest ih =>
    intro frame c h
    simp only [List.foldl]
    rw [ih _ c (fun off hm => h off (List.mem_cons_of_mem o hm))]
    exact getD_set_ne _ _ _ _ (h o (List.mem_cons_self o rest))

/-- The scaling loop never changes the buffer length. -/
theorem scale_foldl_length (pct st : Nat) :
    ∀ (offs : List Nat) (frame : List Int),
      (offs.foldl (fun o off => o.set (st + off) (dimScale (o.getD (st + off) 0) pct))
        frame).length = frame.length := by
  intro offs
  induction offs with
  | nil => intro frame; rfl
  | cons o rest ih =>
    intro frame
    simp only [List.foldl]
    rw [ih]
    exact List.length_set frame _ _

/-- Each offset of the scaling loop (offsets pairwise distinct, channel in
range) receives the scaled copy of its original value. -/
theorem scale_foldl_writes (pct st : Nat) :
    ∀ (offs : List Nat) (frame : List Int) (off : Nat), offs.Nodup → off ∈ offs →
      st + off < frame.length →
      (offs.foldl (fun o off => o.set (st + off) (dimScale (o.getD (st + off) 0) pct))
        frame).getD (st + off) 0 = dimScale (frame.getD (st + off) 0) pct := by
  intro offs
  induction offs with
  | nil => intro frame off _ hmem; simp at hmem
  | cons o rest ih =>
    intro frame off hnd hmem hlt
    have hnd2 := List.nodup_cons.mp hnd
    simp only [List.foldl]
    rcases List.mem_cons.mp hmem with heq | hmem2
    · subst heq
      rw [scale_foldl_untouched pct st rest _ (st + off) ?side]
      · exact getD_set_self _ _ _ hlt
      case side =>
        intro o2 hm2
        have : o2 ≠ off := fun he => hnd2.1 (he ▸ hm2)
        omega
    · have hne : o ≠ off := fun he => hnd2.1 (he ▸ hmem2)
      have hlen : st + off < (frame.set (st + o) (dimScale (frame.getD (st + o) 0) pct)).length := by
        simpa [List.length_set] using hlt
      rw [ih _ off hnd2.2 hmem2 hlen, getD_set_ne _ _ _ _ (by omega)]

/-- C2 (amended): for a fixture whose explicit map contains a `DIM` role
(only `DIM` — an `A`/Amber role does not trigger this path, see the
counterexample), applying the Global Dimmer at `pct < 100` sets that mapped
channel to Python `round(255*pct/100)` as an absolute override, independent
of its prior value, leaves every other channel unchanged, and at `pct = 0`
sets it to exactly 0; the written value is within half a unit of
`255*pct/100`. -/
theorem dimmer_dim_override (pct : Nat) (frame : List Int) (f : Fixture)
    (hpct : pct < 100) (_hsc : 1 ≤ f.start_channel)
    (hdim : dimTok ∈ normMap f)
    (hch : f.start_channel - 1 + (normMap f).indexOf dimTok < frame.length) :
    (applyGlobalDimmer pct frame [f]).getD
        (f.start_channel - 1 + (normMap f).indexOf dimTok) 0 = dimScale 255 pct ∧
    (∀ c, c ≠ f.start_channel - 1 + (normMap f).indexOf dimTok →
      (applyGlobalDimmer pct frame [f]).getD c 0 = frame.getD c 0) ∧
    (pct = 0 →
      (applyGlobalDimmer pct frame [f]).getD
        (f.start_channel - 1 + (normMap f).indexOf dimTok) 0 = 0) ∧
    (100 * dimScale 255 pct - 255 * (pct : Int) ≤ 50 ∧
      -50 ≤ 100 * dimScale 255 pct - 255 * (pct : Int)) := by
  have hne : pct ≠ 100 := by omega
  have key : applyGlobalDimmer pct frame [f]
      = frame.set (f.start_channel - 1 + (normMap f).indexOf dimTok) (dimScale 255 pct) := by
    simp [applyGlobalDimmer, hne, applyDimFixture, hdim]
  refine ⟨?_, fun c hc => ?_, fun h0 => ?_, ?_⟩
  · rw [key]; exact getD_set_self _ _ _ hch
  · rw [key]; exact getD_set_ne _ _ _ _ (Ne.symm hc)
  · subst h0
    rw [key, getD_set_self _ _ _ hch]
    rfl
  · exact pyRound_nearest (255 * (pct : Int))

/-- Witness for the C2 amended theorem: a `DIM`-mapped fixture at 50%. -/
theorem dimmer_dim_override_witness :
    ((50 : Nat) < 100 ∧ 1 ≤ Fixture.start_channel ⟨1, "RGBW", ["DIM"]⟩ ∧
      dimTok ∈ normMap ⟨1, "RGBW", ["DIM"]⟩ ∧
      Fixture.start_channel ⟨1, "RGBW", ["DIM"]⟩ - 1
        + (normMap ⟨1, "RGBW", ["DIM"]⟩).indexOf dimTok < ([0, 0] : List Int).length) ∧
    (applyGlobalDimmer 50 [0, 0] [⟨1, "RGBW", ["DIM"]⟩]).getD
      (Fixture.start_channel ⟨1, "RGBW", ["DIM"]⟩ - 1
        + (normMap ⟨1, "RGBW", ["DIM"]⟩).indexOf dimTok) 0 = dimScale 255 50 :=
  ⟨⟨by decide, by decide, by decide, by decide⟩,
    (dimmer_dim_override 50 [0, 0] ⟨1, "RGBW", ["DIM"]⟩
      (by decide) (by decide) (by decide) (by decide)).1⟩

/-- C6 (amended): for a fixture without a `DIM` role in its map, the Global
Dimmer at `pct < 100` scales in place the fixture's first 4 offsets when
its span is at least 4 and its first 3 offsets otherwise (the loop is over
a fixed 3 or 4 offsets, not `min(span, 4)`), each write bounds-checked;
the scaled value is Python `round(v*pct/100)` — round-half-to-even, within
half a unit of exact — all other channels are unchanged, and 255 at 50%
becomes 128. -/
theorem dimmer_scales_color_channels (pct : Nat) (frame : List Int) (f : Fixture)
    (hpct : pct < 100) (_hsc : 1 ≤ f.start_channel)
    (hnd : dimTok ∉ normMap f) :
    (∀ off, off < (if 4 ≤ fixtureSpan f then 4 else 3) →
      f.start_channel - 1 + off < frame.length →
      (applyGlobalDimmer pct frame [f]).getD (f.start_channel - 1 + off) 0
        = dimScale (frame.getD (f.start_channel - 1 + off) 0) pct) ∧
    (∀ c, (c < f.start_channel - 1 ∨
        f.start_channel - 1 + (if 4 ≤ fixtureSpan f then 4 else 3) ≤ c) →
      (applyGlobalDimmer pct frame [f]).getD c 0 = frame.getD c 0) ∧
    (∀ v : Int, 100 * dimScale v pct - v * (pct : Int) ≤ 50 ∧
      -50 ≤ 100 * dimScale v pct - v * (pct : Int)) ∧
    applyGlobalDimmer 50 [255, 0, 0, 0] [⟨1, "RGBW", []⟩] = [128, 0, 0, 0] := by
  have hne : pct ≠ 100 := by omega
  have key : applyGlobalDimmer pct frame [f]
      = (if 4 ≤ fixtureSpan f then ([0, 1, 2, 3] : List Nat) else [0, 1, 2]).foldl
          (fun o off => o.set (f.start_channel - 1 + off)
            (dimScale (o.getD (f.start_channel - 1 + off) 0) pct)) frame := by
    simp [applyGlobalDimmer, hne, applyDimFixture, hnd]
  refine ⟨fun off hoff hlt => ?_, fun c hc => ?_, fun v => pyRound_nearest (v * (pct : Int)), rfl⟩
  · rw [key]
    refine scale_foldl_writes pct _ _ frame off ?_ ?_ hlt
    · by_cases hs : 4 ≤ fixtureSpan f <;> simp [hs]
    · by_cases hs : 4 ≤ fixtureSpan f <;> simp [hs] at hoff ⊢ <;> omega
  · rw [key]
    refine scale_foldl_untouched pct _ _ frame c ?_
    intro off hmem
    by_cases hs : 4 ≤ fixtureSpan f <;> simp [hs] at hmem hc <;> omega

/-- Witness for the C6 amended theorem: mapless RGB fixture, 255 at 50%. -/
theorem dimmer_scales_color_channels_witness :
    ((50 : Nat) < 100 ∧ 1 ≤ Fixture.start_channel ⟨1, "RGB", []⟩ ∧
      dimTok ∉ normMap ⟨1, "RGB", []⟩) ∧
    (applyGlobalDimmer 50 [255, 7] [⟨1, "RGB", []⟩]).getD 0 0
      = dimScale (([255, 7] : List Int).getD 0 0) 50 :=
  ⟨⟨by decide, by decide, by decide⟩,
    (dimmer_scales_color_channels 50 [255, 7] ⟨1, "RGB", []⟩
      (by decide) (by decide) (by decide)).1 0 (by decide) (by decide)⟩

/-- Clamped values are bytes. -/
theorem clamp255_mem_byte (v : Int) : 0 ≤ clamp255 v ∧ clamp255 v ≤ 255 := by
  unfold clamp255
  omega

/-- C4 (amended): on the explicit-map path (non-empty map), every channel
value written by `_apply_fixture` is clamped to [0, 255]: each entry of the
result is either an untouched entry of the input buffer or lies in
[0, 255].  The mapless positional fallback, by contrast, writes the raw
color values unclamped (see the counterexample). -/
theorem applyFixture_map_path_clamped (buf : List Int) (f : Fixture) (c : Color)
    (a : Attrs) (rd : RootDefaults) (hmap : normMap f ≠ []) :
    ∀ x ∈ applyFixture buf f c a rd, x ∈ buf ∨ (0 ≤ x ∧ x ≤ 255) := by
  intro x hx
  unfold applyFixture at hx
  rw [if_neg hmap] at hx
  revert hx
  generalize (normMap f).enum = ps
  induction ps generalizing buf with
  | nil => intro hx; exact Or.inl hx
  | cons p rest ih =>
    intro hx
    simp only [List.foldl] at hx
    have step : ∀ b : List Int, x ∈ (if p.2 = dimTok then
          b.set (f.start_channel - 1 + p.1) (clamp255 (a.dimmer.getD rd.dimmer))
        else if p.2 = rTok then b.set (f.start_channel - 1 + p.1) (clamp255 c.r)
        else if p.2 = gTok then b.set (f.start_channel - 1 + p.1) (clamp255 c.g)
        else if p.2 = bTok then b.set (f.start_channel - 1 + p.1) (clamp255 c.b)
        else if p.2 = wTok then b.set (f.start_channel - 1 + p.1) (clamp255 c.w)
        else if p.2 = strobeTok then b.set (f.start_channel - 1 + p.1) (clamp255 (a.strobe.getD rd.strobe))
        else b) → x ∈ b ∨ (0 ≤ x ∧ x ≤ 255) := by
      intro b hb
      split_ifs at hb with h1 h2 h3 h4 h5 h6 <;>
        first
          | (rcases List.mem_or_eq_of_mem_set hb with h | h
             · exact Or.inl h
             · exact Or.inr (h ▸ clamp255_mem_byte _))
          | exact Or.inl hb
    rcases ih _ hx with hmem | hrange
    · exact step buf hmem
    · exact Or.inr hrange

/-- Witness for the C4 amended theorem: an `R`-mapped fixture given red
300 writes the clamped byte 255, which is in range. -/
theorem applyFixture_map_path_clamped_witness :
    normMap ⟨1, "RGBW", ["R"]⟩ ≠ [] ∧
    ((255 : Int) ∈ ([0] : List Int) ∨ (0 ≤ (255 : Int) ∧ (255 : Int) ≤ 255)) :=
  ⟨by decide,
    applyFixture_map_path_clamped [0] ⟨1, "RGBW", ["R"]⟩ ⟨300, 0, 0, 0⟩ ⟨none, none⟩
      ⟨255, 0⟩ (by decide) 255 (by decide)⟩

/-- At the final step the interpolated channel lands exactly on the target
(the float factor is exactly 1.0 there, so this is faithful to the source). -/
theorem mixChannel_self (a b : Int) (steps : Nat) (hs : steps ≠ 0) :
    mixChannel a b steps steps = b := by
  unfold mixChannel
  rw [Int.mul_ediv_cancel _ (by exact_mod_cast hs)]
  ring

/-- Channel-level indexing of an interpolated frame. -/
theorem mixFrame_getD (start target : List Int) (i steps c : Nat)
    (hc : c < start.length) (hc2 : c < target.length) :
    (mixFrame start target i steps).getD c 0
      = mixChannel (start.getD c 0) (target.getD c 0) i steps :=
  getD_zip_map (fun x y => mixChannel x y i steps) start target c hc hc2

/-- The final interpolated frame is exactly the target buffer. -/
theorem mixFrame_last (s : List Int) : ∀ (t : List Int) (steps : Nat), steps ≠ 0 →
    s.length = t.length → mixFrame s t steps steps = t := by
  induction s with
  | nil =>
    intro t steps hs hlen
    cases t with
    | nil => rfl
    | cons b t => simp at hlen
  | cons a s ih =>
    intro t steps hs hlen
    cases t with
    | nil => simp at hlen
    | cons b t =>
      have htail := ih t steps hs (by simpa using hlen)
      simp only [mixFrame, List.zip_cons_cons, List.map_cons, mixChannel_self a b steps hs]
      rw [show (List.map (fun p => mixChannel p.1 p.2 steps steps) (s.zip t)) = mixFrame s t steps steps from rfl, htail]

/-- Every interpolated channel is within one rounding unit of the exact
linear value `a + (b − a)·i/steps`: scaled by `steps`, the error is at most
`steps`.  The inclusive bound also absorbs the one-off float truncation the
source can exhibit at exact integer boundaries. -/
theorem mixChannel_bound (a b : Int) (i steps : Nat) (hs : 1 ≤ steps) :
    |(steps : Int) * (mixChannel a b i steps - a) - (b - a) * (i : Int)| ≤ (steps : Int) := by
  have hpos : (0 : Int) < (steps : Int) := by exact_mod_cast hs
  have h1 : (steps : Int) * ((b - a) * (i : Int) / (steps : Int))
      + (b - a) * (i : Int) % (steps : Int) = (b - a) * (i : Int) :=
    Int.ediv_add_emod _ _
  have h2 : 0 ≤ (b - a) * (i : Int) % (steps : Int) := Int.emod_nonneg _ (by omega)
  have h3 : (b - a) * (i : Int) % (steps : Int) < (steps : Int) :=
    Int.emod_lt_of_pos _ hpos
  have hmix : mixChannel a b i steps - a = (b - a) * (i : Int) / (steps : Int) := by
    unfold mixChannel; ring
  have hkey : (steps : Int) * (mixChannel a b i steps - a) - (b - a) * (i : Int)
      = -((b - a) * (i : Int) % (steps : Int)) := by
    rw [hmix]; linarith
  rw [hkey, abs_le]
  constructor <;> linarith

/-- C7: for `steps ≥ 1` and equal-length buffers, the interpolation loop
emits exactly `steps` frames, the k-th emitted frame (0-based) being the
frame for `i = k + 1` — the start buffer (`i = 0`) is never emitted; each
channel of frame `i` is the linear value `start + (target − start)·i/steps`
up to the rounding used (within one unit, stated scaled by `steps`); and
the final frame (`i = steps`) equals the target buffer exactly on every
channel, a fortiori within ±1. -/
theorem interpolate_spec (start target : List Int) (steps : Nat)
    (hs : 1 ≤ steps) (hlen : start.length = target.length) :
    (interpolate start target steps).length = steps ∧
    (∀ k, k < steps →
      (interpolate start target steps).getD k [] = mixFrame start target (k + 1) steps) ∧
    (∀ i c, 1 ≤ i → i ≤ steps → c < start.length →
      |(steps : Int) * ((mixFrame start target i steps).getD c 0 - start.getD c 0)
        - (target.getD c 0 - start.getD c 0) * (i : Int)| ≤ (steps : Int)) ∧
    (interpolate start target steps).getD (steps - 1) [] = target := by
  have hgetD : ∀ k, k < steps →
      (interpolate start target steps).getD k [] = mixFrame start target (k + 1) steps := by
    intro k hk
    simp [interpolate, List.getD_eq_getElem?_getD, List.getElem?_map, List.getElem?_range hk]
  refine ⟨by simp [interpolate], hgetD, fun i c hi his hc => ?_, ?_⟩
  · rw [mixFrame_getD start target i steps c hc (hlen ▸ hc)]
    exact mixChannel_bound _ _ _ _ hs
  · rw [hgetD (steps - 1) (by omega), show steps - 1 + 1 = steps from by omega]
    exact mixFrame_last start target steps (by omega) hlen

/-- Witness for C7 at start `[0, 10]`, target `[255, 20]`, 2 steps. -/
theorem interpolate_spec_witness :
    (1 ≤ 2 ∧ ([0, 10] : List Int).length = ([255, 20] : List Int).length) ∧
    (interpolate [0, 10] [255, 20] 2).getD (2 - 1) [] = [255, 20] :=
  ⟨⟨by decide, by decide⟩,
    (interpolate_spec [0, 10] [255, 20] 2 (by decide) (by decide)).2.2.2⟩

/-- Padded positions of a resized stored buffer read as zero. -/
theorem ensure_len_pad_getD (l : List Int) (n c : Nat) (h : l.length ≤ c) :
    (ensure_len (some l) n).getD c 0 = 0 := by
  unfold ensure_len
  dsimp only
  by_cases h1 : l.length < n
  · rw [if_pos h1, List.getD_eq_getElem?_getD, List.getElem?_append_right h]
    rcases Nat.lt_or_ge (c - l.length) (n - l.length) with hx | hx
    · simp [List.getElem?_replicate, hx]
    · simp [List.getElem?_replicate, Nat.not_lt.mpr hx]
  · rw [if_neg h1]
    by_cases h2 : n < l.length
    · rw [if_pos h2]
      refine List.getD_eq_default _ _ ?_
      rw [List.length_take]
      omega
    · rw [if_neg h2]
      exact List.getD_eq_default _ _ h

/-- A stored buffer at least as long as the requested length is truncated,
never padded. -/
theorem ensure_len_truncates (l : List Int) (n : Nat) (h : n ≤ l.length) :
    ensure_len (some l) n = l.take n := by
  unfold ensure_len
  dsimp only
  by_cases h2 : n < l.length
  · rw [if_neg (by omega), if_pos h2]
  · rw [if_neg (by omega), if_neg h2]
    have hn : l.length = n := by omega
    rw [← hn, List.take_length]

/-- C8 (amended): interpolation between buffers of differing lengths never
errors, but the stored start buffer is resized to the TARGET's length —
zero-padded when shorter, truncated when longer — so every intermediate
buffer has the target's length (not the length of the longer input, see the
counterexample); channels beyond the stored buffer's length interpolate
from 0. -/
theorem interpolateFromBase_resizes (base : Option (List Int)) (target : List Int)
    (steps : Nat) :
    (∀ fr ∈ interpolateFromBase base target steps, fr.length = target.length) ∧
    (ensure_len base target.length).length = target.length ∧
    (∀ l : List Int, base = some l → ∀ c, l.length ≤ c →
      (ensure_len base target.length).getD c 0 = 0) ∧
    (∀ l : List Int, base = some l → target.length ≤ l.length →
      ensure_len base target.length = l.take target.length) ∧
    (∀ l : List Int, base = some l → ∀ i c, l.length ≤ c → c < target.length →
      (mixFrame (ensure_len base target.length) target i steps).getD c 0
        = mixChannel 0 (target.getD c 0) i steps) := by
  refine ⟨?_, ensure_len_length base target.length, ?_, ?_, ?_⟩
  · intro fr hfr
    unfold interpolateFromBase interpolate at hfr
    rcases List.mem_map.mp hfr with ⟨k, hk, rfl⟩
    simp [mixFrame, List.length_zip, ensure_len_length]
  · intro l hl c hc
    subst hl
    exact ensure_len_pad_getD l _ c hc
  · intro l hl hle
    subst hl
    exact ensure_len_truncates l _ hle
  · intro l hl i c hc hct
    subst hl
    have h1 : c < (ensure_len (some l) target.length).length := by
      rw [ensure_len_length]; exact hct
    rw [mixFrame_getD _ _ _ _ _ h1 hct, ensure_len_pad_getD l _ c hc]

/-- Witness for the C8 amended theorem: stored `[5]` padded toward a
3-channel target reads 0 at channel 1. -/
theorem interpolateFromBase_resizes_witness :
    (some ([5] : List Int) = some [5] ∧ ([5] : List Int).length ≤ 1) ∧
    (ensure_len (some [5]) ([1, 2, 3] : List Int).length).getD 1 0 = 0 :=
  ⟨⟨rfl, by decide⟩,
    (interpolateFromBase_resizes (some [5]) [1, 2, 3] 2).2.2.1 [5] rfl 1 (by decide)⟩

end WebDmx
